import Mathlib

/-!
Shallow embedding of the conversational RAG repository
(`src/unnamed/part_000` — the `/chat` route, `src/lib/graph.ts`,
`src/lib/agent.ts`, `src/components/chatInterface.tsx`) and proofs of the
specification claims about it.

JavaScript strings are modelled as Lean `String`; where the code relies on
character-level operations (`split`, `trim`, `substring`) we implement them
on `String.data : List Char` by structural recursion so that every
definition evaluates inside the kernel.
-/

/-! ## JavaScript string primitives (structural, kernel-computable) -/

/-- JS `String.prototype.split('\n\n')` on the character list: greedy
left-to-right scan, a new section starts after each `"\n\n"` occurrence. -/
def splitBlankChars : List Char → List Char → List (List Char)
  | acc, '\n' :: '\n' :: rest => acc :: splitBlankChars [] rest
  | acc, c :: rest => splitBlankChars (acc ++ [c]) rest
  | acc, [] => [acc]

/-- JS `String.prototype.split('\n')` on the character list. -/
def splitNlChars : List Char → List Char → List (List Char)
  | acc, '\n' :: rest => acc :: splitNlChars [] rest
  | acc, c :: rest => splitNlChars (acc ++ [c]) rest
  | acc, [] => [acc]

/-- JS `String.prototype.trim()`: drop whitespace at both ends. -/
def trimChars (cs : List Char) : List Char :=
  ((cs.dropWhile Char.isWhitespace).reverse.dropWhile Char.isWhitespace).reverse

/-- Wrap a character list back into a `String`. -/
def ofChars (cs : List Char) : String := ⟨cs⟩

/-- JS `s.split('\n\n')`. -/
def jsSplitBlank (s : String) : List String :=
  (splitBlankChars [] s.data).map ofChars

/-- JS `s.split('\n')`. -/
def jsSplitNl (s : String) : List String :=
  (splitNlChars [] s.data).map ofChars

/-- JS `s.trim()`. -/
def jsTrim (s : String) : String := ofChars (trimChars s.data)

/-- JS `s.startsWith(p)`. -/
def jsStartsWith (s p : String) : Bool := p.data.isPrefixOf s.data

/-- JS `s.substring(n)` (drop the first `n` characters). -/
def jsSubstring (s : String) (n : Nat) : String := ofChars (s.data.drop n)

/-! ## Message content (`src/unnamed/part_000`, lines 10–40)

`MessageContentComplex` items either carry a `type` tag (`text`,
`image_url`, or an unrecognized tag) or carry no `type` field at all; both
of the last two convert to the empty string, so they are modelled by one
constructor `other`. -/

inductive ComplexItem where
  | text (t : String)
  | image_url (u : String)
  | other
deriving DecidableEq

/-- `handleComplexContent` (`src/unnamed/part_000`, lines 10–22). -/
def handleComplexContent : ComplexItem → String
  | .text t => t
  | .image_url u => "[Image: " ++ u ++ "]"
  | .other => ""

/-- An element of a `MessageContent` array: a plain string or a complex item. -/
inductive ContentItem where
  | str (s : String)
  | complex (c : ComplexItem)
deriving DecidableEq

/-- `MessageContent`: a string, an array of items, or any other value
(`null`, an object, …) which the converter maps to `""`. -/
inductive MessageContent where
  | str (s : String)
  | arr (items : List ContentItem)
  | other
deriving DecidableEq

/-- `convertMessageContentToString` (`src/unnamed/part_000`, lines 24–40):
strings pass through; arrays are mapped item-wise, empty strings are removed
by `.filter(Boolean)`, and the survivors joined with `' '`; anything else
becomes `""`. -/
def convertMessageContentToString : MessageContent → String
  | .str s => s
  | .arr items =>
      String.intercalate " "
        (((items.map fun item =>
            match item with
            | .str s => s
            | .complex c => handleComplexContent c)).filter (· ≠ ""))
  | .other => ""

/-- JS truthiness of a `MessageContent` value (`message.content ? … : ""`):
the empty string and non-string non-array values are falsy, every array is
truthy. -/
def contentTruthy : MessageContent → Bool
  | .str s => s ≠ ""
  | .arr _ => true
  | .other => false

/-! ## The streaming loop (`handleChatStream`, `src/unnamed/part_000`, lines 42–121)

One item per value yielded by `graph.stream`: either an AI message chunk
carrying content, or a non-chunk message (the terminal signal).  A run of
the loop is driven by the finite list of yielded items together with an
optional error that the iterator raises after them (an error raised mid
stream is the same run on the shorter prefix).  The writer itself is
assumed not to throw; `isStreamClosed` then guards exactly the code paths
made explicit below. -/

inductive StreamItem where
  | aiChunk (content : MessageContent)
  | nonAi
deriving DecidableEq

/-- What the gateway does to the stream: write a payload, or close it. -/
inductive Payload where
  | data (text : String)
  | done
  | errText (msg : String)
  | errJson (msg : String)
deriving DecidableEq

inductive StreamAction where
  | write (p : Payload)
  | close
deriving DecidableEq

/-- The body of the async IIFE in `handleChatStream` (lines 61–98): for each
yielded item, a non-chunk message writes `[DONE]` and closes; a chunk whose
converted content is non-empty writes one `data:` event; after the items the
loop either finishes (write `[DONE]`, close) or the iterator's error is
caught (write `data: Error: …`, close). -/
def runStream : List StreamItem → Option String → List StreamAction
  | [], none => [.write .done, .close]
  | [], some e => [.write (.errText e), .close]
  | .nonAi :: _, _ => [.write .done, .close]
  | .aiChunk c :: rest, err =>
      let contentToSend := if contentTruthy c then convertMessageContentToString c else ""
      (if contentToSend ≠ "" then [StreamAction.write (.data contentToSend)] else [])
        ++ runStream rest err

/-- Outcome of `handleChatStream` at the HTTP level. -/
inductive HttpOutcome where
  | streamResp
  | jsonResp (status : Nat) (error : String)
deriving DecidableEq

/-- Setting up the turn (`createOrGetConversation` + `graph.stream`) either
fails with an error message or produces the iterator, modelled by its yielded
items and optional trailing error. -/
def handleChatStream (setup : Except String (List StreamItem × Option String)) :
    List StreamAction × HttpOutcome :=
  match setup with
  | .error e => ([.write (.errJson e), .close], .jsonResp 500 e)
  | .ok (items, err) => (runStream items err, .streamResp)

/-- JS falsiness of `searchParams.get(…)` / a JSON body field: absent
(`null`/`undefined`) or the empty string. -/
def paramFalsy : Option String → Bool
  | none => true
  | some s => s = ""

/-- The `GET` handler (`src/unnamed/part_000`, lines 123–144): validate
`message` and `threadId`, else delegate to `handleChatStream`.  An empty
action list means no event stream was opened. -/
def getChat (message threadId : Option String)
    (setup : Except String (List StreamItem × Option String)) :
    List StreamAction × HttpOutcome :=
  if paramFalsy message || paramFalsy threadId then
    ([], .jsonResp 400 "Message and threadId are required")
  else
    handleChatStream setup

/-- The `POST` handler (`src/unnamed/part_000`, lines 146–167): identical
validation on the parsed JSON body. -/
def postChat (message threadId : Option String)
    (setup : Except String (List StreamItem × Option String)) :
    List StreamAction × HttpOutcome :=
  if paramFalsy message || paramFalsy threadId then
    ([], .jsonResp 400 "Message and threadId are required")
  else
    handleChatStream setup

/-! ## Session registry (`src/lib/graph.ts`, lines 46–63)

`activeThreads` is a `Map` from thread id to the `Date.now()` timestamp of
its registration, modelled as an association list (`Map.set` removes any
previous binding; binding order is irrelevant to the claims).  `uuidv4()` is
modelled by an explicitly passed fresh identifier. -/

/-- `activeThreads.has(id)`. -/
def regHas (reg : List (String × Nat)) (id : String) : Bool :=
  reg.any fun p => p.1 = id

/-- `activeThreads.set(id, now)`. -/
def regSet (reg : List (String × Nat)) (id : String) (now : Nat) :
    List (String × Nat) :=
  (id, now) :: reg.filter fun p => p.1 ≠ id

/-- `createOrGetConversation` (`src/lib/graph.ts`, lines 48–63), restricted
to its registry effect: `if (existingThreadId && activeThreads.has(existingThreadId))`
return the id untouched; otherwise `const threadId = existingThreadId || uuidv4()`
is registered with the current timestamp and returned.  JS truthiness makes
the empty string behave like an absent id in both tests. -/
def createOrGetConversation (existingThreadId : Option String)
    (freshId : String) (now : Nat) (reg : List (String × Nat)) :
    String × List (String × Nat) :=
  match existingThreadId with
  | some id =>
      if id ≠ "" && regHas reg id then
        (id, reg)
      else
        let threadId := if id ≠ "" then id else freshId
        (threadId, regSet reg threadId now)
  | none => (freshId, regSet reg freshId now)

/-! ## Checkpoint reconstruction (`src/components/chatInterface.tsx`, lines 17–41 and 100–156) -/

inductive Role where
  | user
  | assistant
deriving DecidableEq

/-- A reconstructed display message (`interface Message`). -/
structure Message where
  role : Role
  content : String
deriving DecidableEq

/-- `messages[i].kwargs` of a writes entry: only the `content` field matters
to reconstruction; an absent field is `none`. -/
structure MsgData where
  content : Option String
deriving DecidableEq

/-- One value of the `writes` object: a `sender` tag and an optional list of
message fragments. -/
structure WritesEntry where
  sender : String
  messages : Option (List MsgData)
deriving DecidableEq

/-- `CheckpointMetadata`: `step`, `source`, and the `writes` object (a JSON
object modelled as its key/value pairs in insertion order, `Object.keys`
order); `parents` is unused by reconstruction and omitted. -/
structure CheckpointMetadata where
  step : Int
  source : String
  writes : Option (List (String × WritesEntry))
deriving DecidableEq

/-- `parseCheckpointMetadata` (`src/components/chatInterface.tsx`, lines
100–125): skip when `writes` is null or has no key; take the first key's
entry; skip when it has no (first) message or the message content is falsy;
role is `user` when the sender is `"user"` or the checkpoint is an `input`
step written under the `__start__` key, else `assistant`. -/
def parseCheckpointMetadata (m : CheckpointMetadata) : Option Message :=
  match m.writes with
  | none => none
  | some [] => none
  | some ((key, data) :: _) =>
      match data.messages with
      | none => none
      | some [] => none
      | some (messageData :: _) =>
          match messageData.content with
          | none => none
          | some content =>
              if content = "" then none
              else
                some { role :=
                         if data.sender = "user" ∨ (m.source = "input" ∧ key = "__start__")
                         then Role.user else Role.assistant,
                       content := content }

/-- The sort relation used by `checkpoints.sort((a, b) => a.metadata.step - b.metadata.step)`. -/
def stepLE (a b : CheckpointMetadata) : Prop := a.step ≤ b.step

instance : DecidableRel stepLE := fun a b => Int.decLe a.step b.step

/-- The body of the consecutive-duplicate filter (`loadMessages`, lines
146–151): an element is dropped iff it has the same role and identical
content as its predecessor in the *input* array (`array[index - 1]`), so
`prev` advances to the current element whether or not it was kept. -/
def dedupAdjacentGo (prev : Message) : List Message → List Message
  | [] => []
  | y :: ys =>
      if prev.role = y.role ∧ prev.content = y.content then dedupAdjacentGo y ys
      else y :: dedupAdjacentGo y ys

/-- The consecutive-duplicate filter: the first element (`index === 0`) is
always kept. -/
def dedupAdjacent : List Message → List Message
  | [] => []
  | x :: xs => x :: dedupAdjacentGo x xs

/-- `loadMessages` (`src/components/chatInterface.tsx`, lines 127–156),
restricted to its pure reconstruction pipeline: sort the fetched checkpoints
ascending by `step` (JS `Array.prototype.sort` is stable; `insertionSort`
with `≤` is the stable sort with this comparator), parse each, drop the
nulls, and collapse consecutive duplicates. -/
def loadMessages (cps : List CheckpointMetadata) : List Message :=
  dedupAdjacent ((cps.insertionSort stepLE).filterMap parseCheckpointMetadata)

/-- `loadMessages` with each surviving message annotated by the `step` of
the checkpoint it came from (the duplicate filter still compares only roles
and contents, exactly as in the code). -/
def dedupAdjacentAnnGo (prev : Int × Message) :
    List (Int × Message) → List (Int × Message)
  | [] => []
  | y :: ys =>
      if prev.2.role = y.2.role ∧ prev.2.content = y.2.content then
        dedupAdjacentAnnGo y ys
      else y :: dedupAdjacentAnnGo y ys

def dedupAdjacentAnn : List (Int × Message) → List (Int × Message)
  | [] => []
  | x :: xs => x :: dedupAdjacentAnnGo x xs

def loadMessagesAnn (cps : List CheckpointMetadata) : List (Int × Message) :=
  dedupAdjacentAnn
    ((cps.insertionSort stepLE).filterMap fun c =>
      (parseCheckpointMetadata c).map fun m => (c.step, m))

/-! ## Summary projector (`src/components/chatInterface.tsx`, lines 372–406) -/

structure FormattedSummary where
  discussions : List String
  lastTask : List String
  context : List String
deriving DecidableEq

/-- The per-section bullet extraction shared by the three branches of
`parseSummary`: `section.replace(label, '')` removes the first occurrence of
the label, which under the guarding `startsWith(label)` is its prefix; then
trim, split into lines, keep lines whose trimmed form starts with `-`, and
drop the first two characters of each trimmed line. -/
def parseSectionLines (label : String) (sec : String) : List String :=
  ((jsSplitNl (jsTrim (jsSubstring sec label.length))).filter fun line =>
      jsStartsWith (jsTrim line) "-").map fun line =>
    jsSubstring (jsTrim line) 2

/-- The body of `parseSummary`'s `for` loop: route one section to the
bucket whose label prefixes it, leaving the other buckets untouched;
unmatched sections are discarded. -/
def summaryStep (formatted : FormattedSummary) (sec : String) : FormattedSummary :=
  if jsStartsWith sec "Discussions till now:" then
    { formatted with
        discussions := parseSectionLines "Discussions till now:" sec }
  else if jsStartsWith sec "Last task or action item assigned:" then
    { formatted with
        lastTask := parseSectionLines "Last task or action item assigned:" sec }
  else if jsStartsWith sec "Important context for next interactions:" then
    { formatted with
        context := parseSectionLines "Important context for next interactions:" sec }
  else formatted

/-- `parseSummary` (`src/components/chatInterface.tsx`, lines 372–406):
split on blank lines and fold the section router over the sections, starting
from three empty buckets. -/
def parseSummary (summary : String) : FormattedSummary :=
  (jsSplitBlank summary).foldl summaryStep ⟨[], [], []⟩

/-- The texts of the `data:` events of a gateway run, in order, excluding
the `[DONE]` sentinel and error events. -/
def dataPayloads (acts : List StreamAction) : List String :=
  acts.filterMap fun a =>
    match a with
    | .write (.data s) => some s
    | _ => none

/-! ## Retrieval-augmented responder (`src/lib/agent.ts`, `VectorSearchRunnable.invoke`)

Pinecone, the embeddings client and the LLM are external services; they are
modelled as injected fallible functions (`Except String`), with the
embedding-vector type and the raw similarity-score type abstract.  A thrown
exception anywhere in the `try` block is an `Except.error` of `invokeCore`;
the `catch` branch is `invoke`. -/

/-- JS `String.prototype.split(sep)` for a one-character separator. -/
def splitCharChars (sep : Char) : List Char → List Char → List (List Char)
  | acc, c :: rest =>
      if c = sep then acc :: splitCharChars sep [] rest
      else splitCharChars sep (acc ++ [c]) rest
  | acc, [] => [acc]

def jsSplitChar (sep : Char) (s : String) : List String :=
  (splitCharChars sep [] s.data).map ofChars

/-- JS `s.toLowerCase()` (ASCII, which is all the code compares). -/
def jsToLower (s : String) : String := String.map Char.toLower s

/-- JS `s.includes(sub)`. -/
def jsIncludes (s sub : String) : Bool :=
  s.data.tails.any fun t => sub.data.isPrefixOf t

/-- `metadata.<field> || 'N/A'`: JS falsiness maps both an absent field and
the empty string to `'N/A'`. -/
def orNA : Option String → String
  | none => "N/A"
  | some s => if s = "" then "N/A" else s

/-- A metadata field that may hold either a JSON array of strings or a
scalar (`Array.isArray` branches): `industries` and `founders`. -/
inductive MetaStrField where
  | arr (vals : List String)
  | scalar (s : Option String)
deriving DecidableEq

/-- Pinecone match metadata, discriminated on `metadata.type`. -/
inductive SearchMetadata where
  | company (name description batch founded_date : Option String)
      (industries founders : MetaStrField)
  | application (company_name description batch status : Option String)
      (qa_pairs : Option (List String))
deriving DecidableEq

/-- One Pinecone match; the raw similarity score stays abstract. -/
structure SearchMatch (Score : Type) where
  score : Score
  metadata : SearchMetadata

/-- The normalized display record built by `searchResults.matches.map(...)`
(`src/lib/agent.ts`, lines 125–154); the score field already carries the
`(match.score * 100).toFixed(2)` rendering. -/
inductive FormattedRecord where
  | company (name description batch founded_date industries founders score : String)
  | application (company_name description batch status : String)
      (qa_pairs : List String) (score : String)
deriving DecidableEq

/-- `word.charAt(0).toUpperCase() + word.slice(1)`. -/
def capitalizeWord (w : String) : String :=
  String.map Char.toUpper (ofChars (w.data.take 1)) ++ ofChars (w.data.drop 1)

/-- One entry of the industries pipeline after the `join(',')/split(',')`
flattening: `i.trim()` then capitalize each `-`-separated word and rejoin
with spaces. -/
def industriesEntry (s : String) : String :=
  String.intercalate " " ((jsSplitChar '-' (jsTrim s)).map capitalizeWord)

/-- The `industries` rendering: if an array, `join(',')` then `split(',')`,
trim and capitalize each piece, `join(', ')`; otherwise `industries || 'N/A'`. -/
def renderIndustries : MetaStrField → String
  | .arr vals =>
      String.intercalate ", "
        ((jsSplitChar ',' (String.intercalate "," vals)).map industriesEntry)
  | .scalar s => orNA s

/-- The `founders` rendering: `join(', ')` if an array, else `founders || 'N/A'`. -/
def renderFounders : MetaStrField → String
  | .arr vals => String.intercalate ", " vals
  | .scalar s => orNA s

/-- `searchResults.matches.map(...)` body (`src/lib/agent.ts`, lines
125–154), with `formatScore` standing for `(score * 100).toFixed(2)`. -/
def formatMatch {Score : Type} (formatScore : Score → String)
    (m : SearchMatch Score) : FormattedRecord :=
  match m.metadata with
  | .company name description batch founded_date industries founders =>
      .company (orNA name) (orNA description) (orNA batch) (orNA founded_date)
        (renderIndustries industries) (renderFounders founders)
        (formatScore m.score)
  | .application company_name description batch status qa_pairs =>
      .application (orNA company_name) (orNA description) (orNA batch)
        (orNA status)
        (match qa_pairs with
         | some l => l.take 3
         | none => [])
        (formatScore m.score)

/-- A prior chat message as held in `GraphState.chat_history`: discriminated
by `instanceof HumanMessage` / `instanceof AIMessage` with a catch-all. -/
inductive BaseMessage where
  | human (content : String)
  | ai (content : String)
  | otherMsg (content : String)
deriving DecidableEq

/-- The history serialization inside `promptTemplate.format` (`Human: …` /
`Assistant: …` lines joined with newlines). -/
def serializeHistory (history : List BaseMessage) : String :=
  String.intercalate "\n"
    (history.map fun m =>
      match m with
      | .human c => "Human: " ++ c
      | .ai c => "Assistant: " ++ c
      | .otherMsg c => c)

/-- A stand-in rendering of one `FormattedRecord` as text (the exact JSON
spelling produced by `JSON.stringify` is irrelevant to every claim; only
that it is a pure function of the record). -/
def renderRecord : FormattedRecord → String
  | .company n d b f i fo s =>
      "company|" ++ n ++ "|" ++ d ++ "|" ++ b ++ "|" ++ f ++ "|" ++ i ++ "|"
        ++ fo ++ "|" ++ s
  | .application cn d b st qs s =>
      "application|" ++ cn ++ "|" ++ d ++ "|" ++ b ++ "|" ++ st ++ "|"
        ++ String.intercalate ";" qs ++ "|" ++ s

/-- `JSON.stringify(formattedResults, null, 2)` (pretty form used in the prompt). -/
def serializeResultsPretty (rs : List FormattedRecord) : String :=
  String.intercalate "\n" (rs.map renderRecord)

/-- `JSON.stringify(formattedResults)` (compact form stored in `context`). -/
def serializeResultsCompact (rs : List FormattedRecord) : String :=
  String.intercalate "," (rs.map renderRecord)

/-- `promptTemplate.format({chat_history, query, results})`: the fixed
persona/instruction text is inert, so it is elided to a short marker; the
three placeholders are substituted exactly as in the template. -/
def renderPrompt (chatHistoryText query resultsText : String) : String :=
  "YC Advisor persona and instructions\nChat History: " ++ chatHistoryText
    ++ "\nLatest Query: " ++ query
    ++ "\nRetrieved Information: " ++ resultsText

/-- What `this.llm.invoke` returns: `content` is a string or structured
content (modelled by its eventual `JSON.stringify` text). -/
inductive LLMContent where
  | str (s : String)
  | structured (json : String)
deriving DecidableEq

/-- The external service bundle used by `VectorSearchRunnable.invoke`:
`embeddings.embedQuery`, `index.query` (vector, topK, type filter; the
response's `matches` field may be absent), the score formatter, and
`llm.invoke`. -/
structure Services (Emb Score : Type) where
  embedQuery : String → Except String Emb
  query : Emb → Nat → String → Except String (Option (List (SearchMatch Score)))
  formatScore : Score → String
  complete : String → Except String LLMContent

/-- The slice of `GraphState` that `invoke` reads. -/
structure GraphStateIn where
  input : String
  chat_history : List BaseMessage

/-- The state update `invoke` returns (`chat_history` carries the new
user/assistant pair, which `messagesStateReducer` appends to the history). -/
structure GraphStateUpdate where
  chat_history : List BaseMessage
  context : String
  answer : String
deriving DecidableEq

/-- The zero-matches short-circuit value (`src/lib/agent.ts`, lines 115–124). -/
def noResultsUpdate (query : String) : GraphStateUpdate :=
  { chat_history :=
      [.human query, .ai "No matching results found in the database."],
    context := "",
    answer := "No matching results found in the database." }

/-- The fixed apology of the `catch` branch (`src/lib/agent.ts`, lines 282–293). -/
def apologyText : String :=
  "Sorry, I encountered an error while searching the database. Please try again."

/-- The `catch` branch's state update. -/
def apologyUpdate (query : String) : GraphStateUpdate :=
  { chat_history := [.human query, .ai apologyText],
    context := "",
    answer := apologyText }

/-- The `try` block of `VectorSearchRunnable.invoke` (`src/lib/agent.ts`,
lines 97–281): embed the query; classify it (`'application'` substring,
case-insensitive) to pick the filter; `Promise.all` of the top-2 search and
a second embedding (either rejection rejects the block); short-circuit on a
missing or empty `matches` array; otherwise format the matches, render the
prompt over serialized history/query/results, call the LLM once, and take
its content verbatim (serializing structured content). -/
def invokeCore {Emb Score : Type} (svc : Services Emb Score)
    (state : GraphStateIn) : Except String GraphStateUpdate := do
  let query := state.input
  let queryEmbedding ← svc.embedQuery query
  let typeFilter :=
    if jsIncludes (jsToLower query) "application" then "application"
    else "company"
  let res ← svc.query queryEmbedding 2 typeFilter
  let _ ← svc.embedQuery query
  match res with
  | none => pure (noResultsUpdate query)
  | some [] => pure (noResultsUpdate query)
  | some ms =>
      let formattedResults := ms.map (formatMatch svc.formatScore)
      let prompt :=
        renderPrompt (serializeHistory state.chat_history) query
          (serializeResultsPretty formattedResults)
      let llmResponse ← svc.complete prompt
      let answer :=
        match llmResponse with
        | .str s => s
        | .structured j => j
      pure
        { chat_history := [.human query, .ai answer],
          context := serializeResultsCompact formattedResults,
          answer := answer }

/-- `VectorSearchRunnable.invoke`: the `try` block with its `catch`, which
turns any raised error into the fixed apology update. -/
def invoke {Emb Score : Type} (svc : Services Emb Score)
    (state : GraphStateIn) : GraphStateUpdate :=
  match invokeCore svc state with
  | .ok r => r
  | .error _ => apologyUpdate state.input

/-! # Theorems

## Stream discipline of the gateway -/

/-- Every run of the streaming loop is a block of non-empty `data:` writes
followed by exactly one terminal write (`[DONE]` or an error event) and one
close. -/
theorem runStream_shape (items : List StreamItem) (err : Option String) :
    ∃ (pre : List String) (t : Payload),
      runStream items err =
        (pre.map fun s => StreamAction.write (.data s)) ++
          [.write t, .close] ∧
      (∀ s ∈ pre, s ≠ "") ∧
      (t = .done ∨ ∃ m, t = .errText m) := by
  induction items with
  | nil =>
      cases err with
      | none => exact ⟨[], .done, rfl, by simp, Or.inl rfl⟩
      | some e => exact ⟨[], .errText e, rfl, by simp, Or.inr ⟨e, rfl⟩⟩
  | cons i rest ih =>
      cases i with
      | nonAi => exact ⟨[], .done, rfl, by simp, Or.inl rfl⟩
      | aiChunk c =>
          obtain ⟨pre, t, heq, hne, ht⟩ := ih
          by_cases h :
              (if contentTruthy c then convertMessageContentToString c else "") = ""
          · refine ⟨pre, t, ?_, hne, ht⟩
            simp [runStream, h, heq]
          · refine
              ⟨(if contentTruthy c then convertMessageContentToString c else "")
                  :: pre, t, ?_, ?_, ht⟩
            · simp [runStream, h, heq]
            · intro s hs
              rcases List.mem_cons.mp hs with hs | hs
              · exact hs ▸ h
              · exact hne s hs

/-- In a list made of data writes followed by one terminal write and a close,
nothing that follows an occurrence of the `[DONE]` write is a write. -/
theorem no_write_after_done_aux :
    ∀ (ds : List StreamAction) (t : Payload) (l1 l2 : List StreamAction),
      (∀ x ∈ ds, ∃ s, x = StreamAction.write (.data s)) →
      ds ++ [.write t, .close] = l1 ++ .write .done :: l2 →
      ∀ p, StreamAction.write p ∉ l2 := by
  intro ds
  induction ds with
  | nil =>
      intro t l1 l2 _ h p hp
      rcases l1 with _ | ⟨x, l1⟩
      · rw [List.nil_append] at h
        injection h with h1 h2
        subst h2
        simp at hp
      · rw [List.nil_append, List.cons_append] at h
        injection h with h1 h2
        rcases l1 with _ | ⟨y, l1⟩
        · rw [List.nil_append] at h2
          injection h2 with h3 h4
          exact absurd h3 (by simp)
        · rw [List.cons_append] at h2
          injection h2 with h3 h4
          exact absurd h4 (by simp)
  | cons d ds ih =>
      intro t l1 l2 hds h p hp
      obtain ⟨s, rfl⟩ := hds d (List.mem_cons_self d ds)
      rcases l1 with _ | ⟨x, l1⟩
      · rw [List.nil_append] at h
        rw [List.cons_append] at h
        injection h with h1 h2
        exact absurd h1 (by simp)
      · rw [List.cons_append, List.cons_append] at h
        injection h with h1 h2
        exact ih t l1 l2 (fun x hx => hds x (List.mem_cons_of_mem _ hx)) h2 p hp

/-- C5: for every request handled by the streaming gateway and every
interleaving of its completion paths (normal completion, detected non-text
terminal signal, generation error), at most one `[DONE]` sentinel is
emitted, the stream is never written to after the sentinel is emitted, and
the stream is never closed twice. -/
theorem gateway_stream_discipline (items : List StreamItem) (err : Option String) :
    (runStream items err).count (StreamAction.write .done) ≤ 1 ∧
    (runStream items err).count StreamAction.close ≤ 1 ∧
    ∀ l1 l2, runStream items err = l1 ++ StreamAction.write Payload.done :: l2 →
      ∀ p, StreamAction.write p ∉ l2 := by
  obtain ⟨pre, t, heq, hne, ht⟩ := runStream_shape items err
  refine ⟨?_, ?_, ?_⟩
  · rw [heq, List.count_append]
    have h1 :
        (pre.map fun s => StreamAction.write (.data s)).count
          (StreamAction.write .done) = 0 := by
      rw [List.count_eq_zero]
      intro hmem
      obtain ⟨s, _, hs⟩ := List.mem_map.mp hmem
      exact absurd hs (by simp)
    rw [h1]
    rcases ht with rfl | ⟨m, rfl⟩ <;> simp
  · rw [heq, List.count_append]
    have h1 :
        (pre.map fun s => StreamAction.write (.data s)).count
          StreamAction.close = 0 := by
      rw [List.count_eq_zero]
      intro hmem
      obtain ⟨s, _, hs⟩ := List.mem_map.mp hmem
      exact absurd hs (by simp)
    rw [h1]
    simp
  · intro l1 l2 h p
    refine no_write_after_done_aux (pre.map fun s => .write (.data s)) t l1 l2
      ?_ (heq.symm.trans h) p
    intro x hx
    obtain ⟨s, _, hs⟩ := List.mem_map.mp hx
    exact ⟨s, hs.symm⟩

/-- C5 witness: the discipline instantiated on the one-chunk run that ends
with the sentinel. -/
theorem gateway_stream_discipline_witness :
    StreamAction.write Payload.done ∉ [StreamAction.close] ∧
    (runStream [.aiChunk (.str "hi")] none).count (StreamAction.write .done) ≤ 1 :=
  ⟨(gateway_stream_discipline [.aiChunk (.str "hi")] none).2.2
      [.write (.data "hi")] [.close] (by decide) Payload.done,
   (gateway_stream_discipline [.aiChunk (.str "hi")] none).1⟩

/-- The ternary `message.content ? convertMessageContentToString(message.content) : ""`
computes exactly the converted content: every content value that is falsy
converts to `""` anyway. -/
theorem contentToSend_eq (c : MessageContent) :
    (if contentTruthy c then convertMessageContentToString c else "") =
      convertMessageContentToString c := by
  cases c with
  | str s =>
      by_cases h : s = "" <;> simp [contentTruthy, convertMessageContentToString, h]
  | arr items => simp [contentTruthy]
  | other => simp [contentTruthy, convertMessageContentToString]

/-- C10: a generation fragment whose message content converts to the empty
string produces no event at all, and every `data:` event of a run carries
non-empty text. -/
theorem stream_skips_empty_fragments (items : List StreamItem) (err : Option String) :
    (∀ s, StreamAction.write (.data s) ∈ runStream items err → s ≠ "") ∧
    ∀ (c : MessageContent) (rest : List StreamItem),
      convertMessageContentToString c = "" →
      runStream (.aiChunk c :: rest) err = runStream rest err := by
  constructor
  · obtain ⟨pre, t, heq, hne, ht⟩ := runStream_shape items err
    intro s hs
    rw [heq] at hs
    rcases List.mem_append.mp hs with hs | hs
    · obtain ⟨s', hs', heqw⟩ := List.mem_map.mp hs
      have : s' = s := by
        injection heqw with h1
        injection h1
      exact this ▸ hne s' hs'
    · rcases ht with rfl | ⟨m, rfl⟩ <;> simp_all
  · intro c rest h
    simp [runStream, contentToSend_eq, h]

/-- C10 witness: the converted text of a surviving fragment is non-empty,
and a fragment with unrecognized content is skipped entirely. -/
theorem stream_skips_empty_fragments_witness :
    ("hi" : String) ≠ "" ∧
    runStream [.aiChunk .other] none = runStream [] none :=
  ⟨(stream_skips_empty_fragments [.aiChunk (.str "hi")] none).1 "hi" (by decide),
   (stream_skips_empty_fragments [] none).2 .other [] (by decide)⟩

/-- C1 counterexample: on a turn whose generation yields the fragments
`"A"` then `"B"`, the gateway's two data events carry `"A"` and `"B"` —
the second event does not carry the cumulative answer `"A" ++ "B"`, so the
gateway re-sends only each fragment's delta, not the answer-so-far. -/
theorem stream_not_cumulative :
    runStream [.aiChunk (.str "A"), .aiChunk (.str "B")] none =
      [.write (.data "A"), .write (.data "B"), .write .done, .close] ∧
    ¬ dataPayloads (runStream [.aiChunk (.str "A"), .aiChunk (.str "B")] none) =
        ["A", "A" ++ "B"] := by decide

/-- C1 amended: for every turn, each data event (other than the `[DONE]`
sentinel and error events) carries exactly the converted text of the one
fragment that produced it, in generation order, with empty-converting
fragments skipped; the cumulative answer is assembled by the client. -/
theorem stream_emits_fragment_deltas (cs : List MessageContent) (err : Option String) :
    dataPayloads (runStream (cs.map .aiChunk) err) =
      (cs.map convertMessageContentToString).filter (· ≠ "") := by
  induction cs with
  | nil => cases err <;> rfl
  | cons c cs ih =>
      by_cases h : convertMessageContentToString c = ""
      · simp [runStream, dataPayloads, List.filterMap_append, contentToSend_eq, h,
          ih, dataPayloads] at ih ⊢
        exact ih
      · simp [runStream, dataPayloads, List.filterMap_append, contentToSend_eq, h,
          ih, dataPayloads] at ih ⊢
        exact ih

/-! ## Gateway validation -/

/-- C6: a `GET` or `POST` request on `/chat` whose `message` or `threadId`
is missing or empty is answered with HTTP 400 and the error body
`Message and threadId are required`, with no stream action performed (no
turn started, nothing persisted). -/
theorem chat_validation (message threadId : Option String)
    (setup : Except String (List StreamItem × Option String))
    (h : paramFalsy message = true ∨ paramFalsy threadId = true) :
    getChat message threadId setup =
      ([], .jsonResp 400 "Message and threadId are required") ∧
    postChat message threadId setup =
      ([], .jsonResp 400 "Message and threadId are required") := by
  rcases h with h | h <;> constructor <;> simp [getChat, postChat, h]

/-- C6 witness: a request with no `message` and a present `threadId`. -/
theorem chat_validation_witness :
    getChat none (some "t1") (.ok ([], none)) =
      ([], .jsonResp 400 "Message and threadId are required") ∧
    postChat none (some "t1") (.ok ([], none)) =
      ([], .jsonResp 400 "Message and threadId are required") :=
  chat_validation none (some "t1") (.ok ([], none)) (Or.inl (by decide))

/-! ## Session registry -/

/-- C2 counterexample: resolving a supplied thread id (`"t1"`) that is not
tracked in the liveness map returns that very id — recorded with the current
timestamp — and not a freshly minted identifier distinct from it. -/
theorem resolve_untracked_keeps_supplied_id :
    createOrGetConversation (some "t1") "fresh-id" 100 [] =
      ("t1", [("t1", 100)]) ∧
    ¬ (createOrGetConversation (some "t1") "fresh-id" 100 []).1 ≠ "t1" := by
  decide

/-- C2 amended: when no id is supplied (or it is empty), the registry mints
the fresh identifier, records it with the current timestamp and returns it;
when an id is supplied but not tracked, the registry records the *supplied*
id with the current timestamp and returns that same id; a supplied id that
is live is returned with the map untouched. -/
theorem resolve_characterization (existing : Option String) (freshId : String)
    (now : Nat) (reg : List (String × Nat)) :
    ((existing = none ∨ existing = some "") →
      createOrGetConversation existing freshId now reg =
        (freshId, regSet reg freshId now)) ∧
    (∀ id, existing = some id → id ≠ "" → regHas reg id = false →
      createOrGetConversation existing freshId now reg =
        (id, regSet reg id now)) ∧
    (∀ id, existing = some id → id ≠ "" → regHas reg id = true →
      createOrGetConversation existing freshId now reg = (id, reg)) := by
  refine ⟨?_, ?_, ?_⟩
  · rintro (rfl | rfl) <;> simp [createOrGetConversation]
  · rintro id rfl hne hhas
    simp [createOrGetConversation, hne, hhas]
  · rintro id rfl hne hhas
    simp [createOrGetConversation, hne, hhas]

/-- C2 witness: the three branches on concrete registries. -/
theorem resolve_characterization_witness :
    createOrGetConversation none "f" 5 [] = ("f", [("f", 5)]) ∧
    createOrGetConversation (some "t2") "f" 5 [] = ("t2", [("t2", 5)]) ∧
    createOrGetConversation (some "t1") "f" 5 [("t1", 0)] = ("t1", [("t1", 0)]) :=
  ⟨(resolve_characterization none "f" 5 []).1 (Or.inl rfl),
   (resolve_characterization (some "t2") "f" 5 []).2.1 "t2" rfl (by decide) (by decide),
   (resolve_characterization (some "t1") "f" 5 [("t1", 0)]).2.2 "t1" rfl (by decide)
     (by decide)⟩

/-! ## Retrieval-augmented responder -/

/-- C3: when retrieval succeeds but yields zero matches (an absent or empty
`matches` array), `invoke` returns exactly the fixed answer
`No matching results found in the database.`, the update's history is the
pair of the user query and that fixed message, and the result does not
depend on the completion service — it is never invoked for that turn. -/
theorem zero_matches_short_circuit {Emb Score : Type}
    (embed : String → Except String Emb)
    (runQuery : Emb → Nat → String → Except String (Option (List (SearchMatch Score))))
    (fsc : Score → String)
    (complete1 complete2 : String → Except String LLMContent)
    (state : GraphStateIn) (e : Emb)
    (res : Option (List (SearchMatch Score)))
    (hemb : embed state.input = .ok e)
    (hsearch :
      runQuery e 2
        (if jsIncludes (jsToLower state.input) "application" then "application"
         else "company") = .ok res)
    (hres : res = none ∨ res = some []) :
    invoke ⟨embed, runQuery, fsc, complete1⟩ state =
      { chat_history := [.human state.input,
          .ai "No matching results found in the database."],
        context := "",
        answer := "No matching results found in the database." } ∧
    invoke ⟨embed, runQuery, fsc, complete1⟩ state =
      invoke ⟨embed, runQuery, fsc, complete2⟩ state := by
  have hcore : ∀ cmpl : String → Except String LLMContent,
      invokeCore ⟨embed, runQuery, fsc, cmpl⟩ state =
        .ok (noResultsUpdate state.input) := by
    intro cmpl
    rcases hres with rfl | rfl <;>
      simp [invokeCore, hemb, hsearch, bind, Except.bind, pure, Except.pure]
  refine ⟨?_, ?_⟩
  · simp [invoke, hcore complete1, noResultsUpdate]
  · simp [invoke, hcore complete1, hcore complete2]

/-- C3 witness: a retrieval service answering with an empty `matches` array,
run against two completion services — one of which always fails — gives the
fixed no-results update either way. -/
theorem zero_matches_short_circuit_witness :
    invoke
        (⟨fun _ => .ok (), fun _ _ _ => .ok (some []), fun _ => "0",
          fun _ => .ok (.str "ignored")⟩ : Services Unit Unit) ⟨"hi", []⟩ =
      { chat_history := [.human "hi",
          .ai "No matching results found in the database."],
        context := "",
        answer := "No matching results found in the database." } ∧
    invoke
        (⟨fun _ => .ok (), fun _ _ _ => .ok (some []), fun _ => "0",
          fun _ => .ok (.str "ignored")⟩ : Services Unit Unit) ⟨"hi", []⟩ =
      invoke
        (⟨fun _ => .ok (), fun _ _ _ => .ok (some []), fun _ => "0",
          fun _ => .error "llm should never be called"⟩ : Services Unit Unit)
        ⟨"hi", []⟩ :=
  zero_matches_short_circuit (fun _ => .ok ()) (fun _ _ _ => .ok (some []))
    (fun _ => "0") (fun _ => .ok (.str "ignored"))
    (fun _ => .error "llm should never be called") ⟨"hi", []⟩ () (some [])
    rfl rfl (Or.inr rfl)

/-- C4: whatever error is raised inside the `try` block of
`VectorSearchRunnable.invoke` — during embedding, retrieval or completion —
the `catch` turns it into the fixed apology answer with the pair
`(original query, apology)` as the history update; `invoke` itself is total
and never propagates the error. -/
theorem responder_catches_errors {Emb Score : Type} (svc : Services Emb Score)
    (state : GraphStateIn) (e : String)
    (h : invokeCore svc state = .error e) :
    invoke svc state =
      { chat_history := [.human state.input, .ai apologyText],
        context := "",
        answer := apologyText } := by
  simp [invoke, h, apologyUpdate]

/-- C4 witness: a simulated completion-service failure on a query that does
retrieve one match yields the apology update. -/
theorem responder_catches_errors_witness :
    invoke
        (⟨fun _ => .ok (),
          fun _ _ _ =>
            .ok (some [⟨(), .company none none none none (.scalar none)
              (.scalar none)⟩]),
          fun _ => "0",
          fun _ => .error "upstream connect error"⟩ : Services Unit Unit)
        ⟨"hello", []⟩ =
      { chat_history := [.human "hello", .ai apologyText],
        context := "",
        answer := apologyText } :=
  responder_catches_errors
    (⟨fun _ => .ok (),
      fun _ _ _ =>
        .ok (some [⟨(), .company none none none none (.scalar none)
          (.scalar none)⟩]),
      fun _ => "0",
      fun _ => .error "upstream connect error"⟩ : Services Unit Unit)
    ⟨"hello", []⟩ "upstream connect error" (by rfl)

/-! ## Checkpoint reconstruction -/

/-- After the duplicate filter, each element differs from its input
predecessor, and runs of equal messages collapse; so the filtered output is
adjacent-duplicate-free. -/
theorem dedupAdjacentGo_chain (l : List Message) :
    ∀ prev, List.Chain'
      (fun a b => ¬(a.role = b.role ∧ a.content = b.content))
      (prev :: dedupAdjacentGo prev l) := by
  induction l with
  | nil =>
      intro prev
      simp [dedupAdjacentGo]
  | cons y ys ih =>
      intro prev
      by_cases h : prev.role = y.role ∧ prev.content = y.content
      · have hpy : prev = y := by
          cases prev
          cases y
          obtain ⟨h1, h2⟩ := h
          simp_all
        rw [dedupAdjacentGo, if_pos h, hpy]
        exact ih y
      · rw [dedupAdjacentGo, if_neg h, List.chain'_cons]
        exact ⟨h, ih y⟩

/-- A list already free of adjacent duplicates passes through the duplicate
filter unchanged. -/
theorem dedupAdjacentGo_of_chain (l : List Message) :
    ∀ prev, List.Chain'
        (fun a b => ¬(a.role = b.role ∧ a.content = b.content)) (prev :: l) →
      dedupAdjacentGo prev l = l := by
  induction l with
  | nil => intro prev _; rfl
  | cons y ys ih =>
      intro prev h
      rw [List.chain'_cons] at h
      rw [dedupAdjacentGo, if_neg h.1, ih y h.2]

/-- C7: the reconstructor's output never contains two adjacent messages
with both the same role and identical content, while a message list that is
already free of adjacent duplicates — in particular one with non-adjacent
duplicates — is preserved exactly by the duplicate filter. -/
theorem reconstructed_no_adjacent_duplicates (cps : List CheckpointMetadata)
    (ms : List Message)
    (h : List.Chain'
      (fun a b => ¬(a.role = b.role ∧ a.content = b.content)) ms) :
    List.Chain' (fun a b => ¬(a.role = b.role ∧ a.content = b.content))
      (loadMessages cps) ∧
    dedupAdjacent ms = ms := by
  constructor
  · unfold loadMessages
    cases (cps.insertionSort stepLE).filterMap parseCheckpointMetadata with
    | nil => simp [dedupAdjacent]
    | cons x xs =>
        rw [dedupAdjacent]
        exact dedupAdjacentGo_chain xs x
  · cases ms with
    | nil => rfl
    | cons x xs =>
        rw [dedupAdjacent, dedupAdjacentGo_of_chain xs x h]

/-- C7 witness: a one-checkpoint reconstruction, and a three-message list
with a non-adjacent duplicate (first and third) left intact. -/
theorem reconstructed_no_adjacent_duplicates_witness :
    List.Chain' (fun a b => ¬(a.role = b.role ∧ a.content = b.content))
      (loadMessages
        [⟨1, "input", some [("__start__", ⟨"user", some [⟨some "hi"⟩]⟩)]⟩]) ∧
    dedupAdjacent [⟨Role.user, "x"⟩, ⟨Role.assistant, "x"⟩, ⟨Role.user, "x"⟩] =
      [⟨Role.user, "x"⟩, ⟨Role.assistant, "x"⟩, ⟨Role.user, "x"⟩] :=
  reconstructed_no_adjacent_duplicates
    [⟨1, "input", some [("__start__", ⟨"user", some [⟨some "hi"⟩]⟩)]⟩]
    [⟨Role.user, "x"⟩, ⟨Role.assistant, "x"⟩, ⟨Role.user, "x"⟩]
    (by simp [List.chain'_cons])

instance : IsTotal CheckpointMetadata stepLE :=
  ⟨fun a b => Int.le_total a.step b.step⟩

instance : IsTrans CheckpointMetadata stepLE :=
  ⟨fun _ _ _ => Int.le_trans⟩

/-- The steps of the parsed, annotated checkpoints form a sublist of the
steps of the checkpoints they were taken from. -/
theorem filterMapAnn_sublist (l : List CheckpointMetadata) :
    List.Sublist
      ((l.filterMap fun c =>
        (parseCheckpointMetadata c).map fun m => (c.step, m)).map Prod.fst)
      (l.map fun c => c.step) := by
  induction l with
  | nil => simp
  | cons c l ih =>
      rw [List.filterMap_cons]
      cases parseCheckpointMetadata c with
      | none =>
          simp only [Option.map_none', List.map_cons]
          exact ih.cons _
      | some m =>
          simp only [Option.map_some', List.map_cons]
          exact ih.cons₂ _

/-- The annotated duplicate filter only ever drops elements. -/
theorem dedupAdjacentAnnGo_sublist (l : List (Int × Message)) :
    ∀ prev, List.Sublist (dedupAdjacentAnnGo prev l) l := by
  induction l with
  | nil => intro prev; simp [dedupAdjacentAnnGo]
  | cons y ys ih =>
      intro prev
      by_cases h : prev.2.role = y.2.role ∧ prev.2.content = y.2.content
      · rw [dedupAdjacentAnnGo, if_pos h]
        exact (ih y).cons _
      · rw [dedupAdjacentAnnGo, if_neg h]
        exact (ih y).cons₂ _

theorem dedupAdjacentAnn_sublist (l : List (Int × Message)) :
    List.Sublist (dedupAdjacentAnn l) l := by
  cases l with
  | nil => simp [dedupAdjacentAnn]
  | cons x xs =>
      rw [dedupAdjacentAnn]
      exact (dedupAdjacentAnnGo_sublist xs x).cons₂ _

/-- Dropping the annotations commutes with parsing. -/
theorem filterMap_parse_eq_map_snd (l : List CheckpointMetadata) :
    l.filterMap parseCheckpointMetadata =
      (l.filterMap fun c =>
        (parseCheckpointMetadata c).map fun m => (c.step, m)).map Prod.snd := by
  induction l with
  | nil => rfl
  | cons c l ih =>
      rw [List.filterMap_cons, List.filterMap_cons]
      cases parseCheckpointMetadata c with
      | none => simpa using ih
      | some m => simpa using ih

/-- Dropping the annotations commutes with the duplicate filter (which
compares only roles and contents in both versions). -/
theorem dedupAdjacentGo_map_snd (l : List (Int × Message)) :
    ∀ prev : Int × Message,
      dedupAdjacentGo prev.2 (l.map Prod.snd) =
        (dedupAdjacentAnnGo prev l).map Prod.snd := by
  induction l with
  | nil => intro prev; rfl
  | cons y ys ih =>
      intro prev
      by_cases h : prev.2.role = y.2.role ∧ prev.2.content = y.2.content
      · rw [List.map_cons, dedupAdjacentGo, if_pos h, dedupAdjacentAnnGo,
          if_pos h]
        exact ih y
      · rw [List.map_cons, dedupAdjacentGo, if_neg h, dedupAdjacentAnnGo,
          if_neg h, List.map_cons, ih y]

theorem dedupAdjacent_map_snd (l : List (Int × Message)) :
    dedupAdjacent (l.map Prod.snd) = (dedupAdjacentAnn l).map Prod.snd := by
  cases l with
  | nil => rfl
  | cons x xs =>
      rw [List.map_cons, dedupAdjacent, dedupAdjacentAnn, List.map_cons,
        dedupAdjacentGo_map_snd xs x]

/-- C8: whatever order the checkpoints are supplied in — in particular for
every permutation of the same multiset — the reconstructor's messages appear
in ascending order of their originating checkpoints' `step` field, the
annotation being made explicit by `loadMessagesAnn`, whose projection is
exactly `loadMessages`. -/
theorem reconstructed_sorted_by_step (cps : List CheckpointMetadata) :
    List.Sorted (· ≤ ·) ((loadMessagesAnn cps).map Prod.fst) ∧
    loadMessages cps = (loadMessagesAnn cps).map Prod.snd := by
  constructor
  · have hsorted : List.Sorted stepLE (cps.insertionSort stepLE) :=
      List.sorted_insertionSort stepLE cps
    have hsteps :
        List.Sorted (· ≤ ·)
          ((cps.insertionSort stepLE).map fun c => c.step) := by
      rw [List.Sorted, List.pairwise_map]
      exact hsorted
    have hsub :
        List.Sublist ((loadMessagesAnn cps).map Prod.fst)
          ((cps.insertionSort stepLE).map fun c => c.step) := by
      unfold loadMessagesAnn
      exact ((dedupAdjacentAnn_sublist _).map Prod.fst).trans
        (filterMapAnn_sublist _)
    exact List.Pairwise.sublist hsub hsteps
  · unfold loadMessages loadMessagesAnn
    rw [filterMap_parse_eq_map_snd, dedupAdjacent_map_snd]

/-! ## Summary projector -/

theorem summaryStep_discussions (acc : FormattedSummary) (sec : String)
    (h : jsStartsWith sec "Discussions till now:" = false) :
    (summaryStep acc sec).discussions = acc.discussions := by
  unfold summaryStep
  split_ifs <;> simp_all

theorem summaryStep_lastTask (acc : FormattedSummary) (sec : String)
    (h : jsStartsWith sec "Last task or action item assigned:" = false) :
    (summaryStep acc sec).lastTask = acc.lastTask := by
  unfold summaryStep
  split_ifs <;> simp_all

theorem summaryStep_context (acc : FormattedSummary) (sec : String)
    (h : jsStartsWith sec "Important context for next interactions:" = false) :
    (summaryStep acc sec).context = acc.context := by
  unfold summaryStep
  split_ifs <;> simp_all

theorem foldl_discussions (secs : List String) :
    ∀ acc : FormattedSummary,
      (∀ sec ∈ secs, jsStartsWith sec "Discussions till now:" = false) →
      (secs.foldl summaryStep acc).discussions = acc.discussions := by
  induction secs with
  | nil => intro acc _; rfl
  | cons s ss ih =>
      intro acc h
      rw [List.foldl_cons,
        ih _ (fun sec hs => h sec (List.mem_cons_of_mem _ hs)),
        summaryStep_discussions acc s (h s (List.mem_cons_self s ss))]

theorem foldl_lastTask (secs : List String) :
    ∀ acc : FormattedSummary,
      (∀ sec ∈ secs,
        jsStartsWith sec "Last task or action item assigned:" = false) →
      (secs.foldl summaryStep acc).lastTask = acc.lastTask := by
  induction secs with
  | nil => intro acc _; rfl
  | cons s ss ih =>
      intro acc h
      rw [List.foldl_cons,
        ih _ (fun sec hs => h sec (List.mem_cons_of_mem _ hs)),
        summaryStep_lastTask acc s (h s (List.mem_cons_self s ss))]

theorem foldl_context (secs : List String) :
    ∀ acc : FormattedSummary,
      (∀ sec ∈ secs,
        jsStartsWith sec "Important context for next interactions:" = false) →
      (secs.foldl summaryStep acc).context = acc.context := by
  induction secs with
  | nil => intro acc _; rfl
  | cons s ss ih =>
      intro acc h
      rw [List.foldl_cons,
        ih _ (fun sec hs => h sec (List.mem_cons_of_mem _ hs)),
        summaryStep_context acc s (h s (List.mem_cons_self s ss))]

/-- C9: the summary projector maps `"Discussions till now:\n- A\n- B"` to
the record with discussions `["A", "B"]` and the other two buckets empty,
and for any input in which one of the three labelled sections is absent the
corresponding bucket is the empty list rather than an error. -/
theorem summary_projector (s1 s2 s3 : String)
    (h1 : ∀ sec ∈ jsSplitBlank s1,
      jsStartsWith sec "Discussions till now:" = false)
    (h2 : ∀ sec ∈ jsSplitBlank s2,
      jsStartsWith sec "Last task or action item assigned:" = false)
    (h3 : ∀ sec ∈ jsSplitBlank s3,
      jsStartsWith sec "Important context for next interactions:" = false) :
    parseSummary "Discussions till now:\n- A\n- B" =
      { discussions := ["A", "B"], lastTask := [], context := [] } ∧
    (parseSummary s1).discussions = [] ∧
    (parseSummary s2).lastTask = [] ∧
    (parseSummary s3).context = [] := by
  refine ⟨by decide, ?_, ?_, ?_⟩
  · exact foldl_discussions (jsSplitBlank s1) ⟨[], [], []⟩ h1
  · exact foldl_lastTask (jsSplitBlank s2) ⟨[], [], []⟩ h2
  · exact foldl_context (jsSplitBlank s3) ⟨[], [], []⟩ h3

/-- C9 witness: a summary with only a last-task section has an empty
discussions bucket, and a label-free text leaves every bucket empty. -/
theorem summary_projector_witness :
    parseSummary "Discussions till now:\n- A\n- B" =
      { discussions := ["A", "B"], lastTask := [], context := [] } ∧
    (parseSummary "Last task or action item assigned:\n- T").discussions = [] ∧
    (parseSummary "hello").lastTask = [] ∧
    (parseSummary "hello").context = [] :=
  summary_projector "Last task or action item assigned:\n- T" "hello" "hello"
    (by decide) (by decide) (by decide)
